import Mathlib

set_option maxRecDepth 100000

/-!
Verification of the key-extraction tool in tools/extract_key.py.

The script is a linear pipeline: locate the target process with pgrep,
drive a debugger script that scans readable memory regions for the
SQLCipher key pattern (an x-quote-delimited run of 64 hex characters),
fall back to a proximity search around the db_storage marker, parse the
printed candidate lines, and write the keys to an output file.  The
definitions below are a shallow embedding of that pipeline, translated
directly from the source; theorems about the frozen claims follow.

The left-to-right regex scans are defined with an explicit fuel argument
(instantiated with the text length) so that they are structurally
recursive and evaluate inside the kernel; each scan step consumes at
least one character, so a fuel equal to the text length is always
enough, and the soundness and completeness lemmas below quantify over
any sufficient fuel.
-/

/-- Hex-character test, embedding the character class 0-9 a-f A-F used by
both regexes in the script. -/
def isHexChar (c : Char) : Bool :=
  (decide ('0' ≤ c) && decide (c ≤ '9')) || (decide ('a' ≤ c) && decide (c ≤ 'f'))
    || (decide ('A' ≤ c) && decide (c ≤ 'F'))

/-- The ASCII single-quote character (code 39) used as delimiter in the
primary pattern. -/
def quoteChar : Char := Char.ofNat 39

/-- One-character string holding `quoteChar`, used to build concrete inputs. -/
def quoteStr : String := String.mk [quoteChar]

/-- Does the primary pattern (x, quote, 64 hex characters, quote) match at
the head of the text?  Direct embedding of the regex used at line 84 of the
script. -/
def isPrimaryMatch (s : List Char) : Bool :=
  decide (s[0]? = some 'x') && decide (s[1]? = some quoteChar)
    && ((s.drop 2).take 64).all isHexChar
    && decide (s[66]? = some quoteChar) && decide (67 ≤ s.length)

/-- The capture group of the primary pattern at the head of the text, if the
pattern matches there. -/
def primaryMatchHead (s : List Char) : Option (List Char) :=
  if isPrimaryMatch s then some ((s.drop 2).take 64) else none

/-- Fuelled left-to-right non-overlapping scan for the primary pattern,
embedding re.finditer over the decoded region text: on a match the scan
emits the 64-character capture and resumes after the match (67 characters),
otherwise it advances one character. -/
def primaryScanF : Nat → List Char → List (List Char)
  | 0, _ => []
  | _ + 1, [] => []
  | fuel + 1, c :: rest =>
    if isPrimaryMatch (c :: rest) then
      ((c :: rest).drop 2).take 64 :: primaryScanF fuel (rest.drop 66)
    else primaryScanF fuel rest

/-- The primary-pattern scan of a text. -/
def primaryScan (s : List Char) : List (List Char) := primaryScanF s.length s

/-- Does the fallback pattern (any 64 consecutive hex characters, with no
boundary anchors) match at the head of the text?  Direct embedding of the
regex used at line 132 of the script. -/
def isHex64 (s : List Char) : Bool :=
  ((s.take 64).all isHexChar) && decide (64 ≤ s.length)

/-- Fuelled left-to-right non-overlapping scan for the fallback pattern: on
a match the scan emits the 64 characters and resumes 64 characters later,
otherwise it advances one character. -/
def hexScanF : Nat → List Char → List (List Char)
  | 0, _ => []
  | _ + 1, [] => []
  | fuel + 1, c :: rest =>
    if isHex64 (c :: rest) then
      (c :: rest).take 64 :: hexScanF fuel (rest.drop 63)
    else hexScanF fuel rest

/-- The fallback-pattern scan of a text. -/
def hexScan (s : List Char) : List (List Char) := hexScanF s.length s

/-- Is the first list an initial segment of the second? -/
def listStartsWith : List Char → List Char → Bool
  | [], _ => true
  | _ :: _, [] => false
  | p :: ps, c :: cs => p == c && listStartsWith ps cs

/-- The marker substring db_storage searched for by the fallback pass. -/
def dbMarker : List Char := ['d', 'b', '_', 's', 't', 'o', 'r', 'a', 'g', 'e']

/-- Fuelled scan for the start positions of the marker occurrences, left to
right, resuming after each occurrence (the marker is 10 characters long),
embedding re.finditer at line 128 of the script. -/
def markerScanF : Nat → Nat → List Char → List Nat
  | 0, _, _ => []
  | _ + 1, _, [] => []
  | fuel + 1, i, c :: rest =>
    if listStartsWith dbMarker (c :: rest) then i :: markerScanF fuel (i + 10) (rest.drop 9)
    else markerScanF fuel (i + 1) rest

/-- The marker positions of a text. -/
def markerScan (t : List Char) : List Nat := markerScanF t.length 0 t

/-- The window text around a marker occurrence: the Python slice
text[max(0, pos-1024) : pos+1024], with both bounds clamped. -/
def windowAt (t : List Char) (pos : Nat) : List Char :=
  (t.take (pos + 1024)).drop (pos - 1024)

/-- Sixty-four repeated zero characters. -/
def zeros64 : List Char := List.replicate 64 '0'

/-- The fallback noise filter at line 135: keep a candidate iff it differs
from the all-zero string and has more than 4 distinct characters. -/
def noiseFilter (c : List Char) : Bool :=
  decide (c ≠ zeros64) && decide (4 < c.dedup.length)

/-- One fallback pass over a decoded region text: for every marker
occurrence, scan the surrounding window for the fallback pattern and keep
the candidates passing the noise filter, in discovery order.  Each passing
candidate is printed (hence reported) at every discovery. -/
def fallbackScanText (t : List Char) : List (List Char) :=
  (markerScan t).flatMap (fun pos => (hexScan (windowAt t pos)).filter noiseFilter)

/-- A memory region of the attached process: its byte size, protection
flags, whether ReadMemory succeeds on it, and its bytes decoded latin-1
(one char per byte, decoding never fails). -/
structure Region where
  size : Nat
  readable : Bool
  writable : Bool
  readOk : Bool
  content : List Char
deriving Repr, DecidableEq

/-- Primary-pass captures contributed by one region: the region is scanned
iff it is readable, its size lies in [64, 100 MiB], and the read of the
first 10 MiB succeeds and is non-empty (lines 62-86 of the script). -/
def primaryRegionKeys (r : Region) : List (List Char) :=
  if r.readable && decide (64 ≤ r.size) && decide (r.size ≤ 100 * 1024 * 1024)
      && r.readOk && !(r.content.take (10 * 1024 * 1024)).isEmpty then
    primaryScan (r.content.take (10 * 1024 * 1024))
  else []

/-- Fallback-pass candidates contributed by one region: the region is
scanned iff it is readable and writable, its size lies in [100, 50 MiB],
and the read of the first 5 MiB succeeds and is non-empty (lines 105-137). -/
def fallbackRegionKeys (r : Region) : List (List Char) :=
  if r.readable && r.writable && decide (100 ≤ r.size) && decide (r.size ≤ 50 * 1024 * 1024)
      && r.readOk && !(r.content.take (5 * 1024 * 1024)).isEmpty then
    fallbackScanText (r.content.take (5 * 1024 * 1024))
  else []

/-- The deduplicated primary-pass result set (found_keys after the first
pass). -/
def primaryFound (regions : List Region) : List (List Char) :=
  (regions.flatMap primaryRegionKeys).dedup

/-- The key lines printed by the debugger script and parsed back by the
driver (lines 94-143 and 172-179): if the attach failed nothing is printed;
if the primary pass found keys they are printed once each, in the iteration
order of the Python set (modelled by the order parameter); otherwise the
fallback pass runs over all regions and prints every passing candidate at
every discovery. -/
def scanPrintedKeys (order : List (List Char) → List (List Char))
    (attachOk : Bool) (regions : List Region) : List (List Char) :=
  if attachOk then
    if primaryFound regions = [] then regions.flatMap fallbackRegionKeys
    else order (primaryFound regions)
  else []

/-- A set-iteration order is any function that permutes its input; Python
guarantees nothing more about iterating a set of strings, and CPython's
string hashing (hence set iteration order) is randomized per interpreter
process. -/
def validOrder (order : List (List Char) → List (List Char)) : Prop :=
  ∀ l, List.Perm (order l) l

/-- The identity iteration order. -/
def idOrder (l : List (List Char)) : List (List Char) := l

/-- The reversed iteration order. -/
def revOrder (l : List (List Char)) : List (List Char) := l.reverse

/-- The observable state the tool runs against: the pgrep exit code and
stdout, whether the debugger attach succeeds, whether the 120-second
timeout on the debugger subprocess fires, and the memory regions of the
target process. -/
structure SysState where
  pgrepRc : Int
  pgrepStdout : String
  attachOk : Bool
  lldbTimeout : Bool
  regions : List Region
deriving Repr

/-- The list of keys returned by extract_key_via_lldb (lines 20-179): if the
120-second timeout fires, subprocess.run raises TimeoutExpired, which the
function does not catch (modelled as an error result); otherwise the KEY
lines of the script output are parsed in order. -/
def extract_key_via_lldb (order : List (List Char) → List (List Char))
    (st : SysState) : Except Unit (List (List Char)) :=
  if st.lldbTimeout then Except.error ()
  else Except.ok (scanPrintedKeys order st.attachOk st.regions)

/-- Python str.strip on a character list: drop whitespace from both ends. -/
def stripChars (s : List Char) : List Char :=
  ((s.dropWhile Char.isWhitespace).reverse.dropWhile Char.isWhitespace).reverse

/-- Python str.split on a single newline separator: the result always has
one more element than the number of newlines, and splitting the empty text
yields one empty part. -/
def splitLines : List Char → List (List Char)
  | [] => [[]]
  | c :: rest =>
    if c = '\n' then [] :: splitLines rest
    else
      match splitLines rest with
      | [] => [[c]]
      | l :: ls => (c :: l) :: ls

/-- get_wechat_pid (lines 13-18): None when pgrep exits non-zero, otherwise
the first element of stdout stripped and split on newlines (the split of a
string is never the empty list, so the guarded branch returning None for an
empty list is dead, and an empty stdout yields the empty string). -/
def get_wechat_pid (returncode : Int) (stdout : String) : Option String :=
  if returncode ≠ 0 then none
  else
    match splitLines (stripChars stdout.toList) with
    | [] => none
    | p :: _ => some (String.mk p)

/-- Python truthiness of the pid value tested by main at line 199: None and
the empty string are falsy. -/
def pidTruthy : Option String → Bool
  | none => false
  | some s => decide (s ≠ "")

/-- The bytes written to the output key file: one key per line, each line
newline-terminated (lines 215-217). -/
def fileBytes (keys : List (List Char)) : String :=
  String.join (keys.map (fun k => String.mk k ++ "\n"))

/-- Observable outcome of a run of main: a normal exit with its status code
and the output file content if one was written, or an abnormal termination
by an uncaught exception. -/
inductive MainOutcome where
  | exited (code : Nat) (file : Option String)
  | crashed
deriving Repr, DecidableEq

/-- main (lines 197-223): exit 1 without writing anything when the pid is
falsy; otherwise run the extraction (crashing if it raises); write the file
iff the key list is non-empty; exit 0 either way. -/
def mainRun (order : List (List Char) → List (List Char)) (st : SysState) : MainOutcome :=
  if pidTruthy (get_wechat_pid st.pgrepRc st.pgrepStdout) then
    match extract_key_via_lldb order st with
    | Except.error _ => MainOutcome.crashed
    | Except.ok keys =>
      if keys = [] then MainOutcome.exited 0 none
      else MainOutcome.exited 0 (some (fileBytes keys))
  else MainOutcome.exited 1 none

/-- Outcome of the sqlcipher validation subprocess: normal completion with
exit code and stdout, a 10-second timeout, or a missing executable. -/
inductive SubprocOutcome where
  | completed (returncode : Int) (stdout : String)
  | timedOut
  | toolMissing
deriving Repr, DecidableEq

/-- try_decrypt_with_key (lines 181-195), with the environment's response to
the subprocess invocation abstracted as an oracle: True iff the tool
completed with exit code 0 and a stdout that is non-empty after stripping
whitespace; TimeoutExpired and FileNotFoundError are caught and give
False. -/
def try_decrypt_with_key (env : String → String → SubprocOutcome)
    (dbPath key : String) : Bool :=
  match env dbPath key with
  | SubprocOutcome.completed rc out => decide (rc = 0) && !(stripChars out.toList).isEmpty
  | SubprocOutcome.timedOut => false
  | SubprocOutcome.toolMissing => false

/-- Is the character at an index hex?  False when the index is out of
range. -/
def hexAt (s : List Char) (i : Nat) : Bool := (s[i]?).any isHexChar

/-- A run of len hex characters starting at index a, lying inside the
text. -/
def hexRun (s : List Char) (a len : Nat) : Bool :=
  decide (a + len ≤ s.length) && (List.range len).all (fun j => hexAt s (a + j))

/-- A maximal hex run: a hex run that extends neither one character to the
left nor one to the right. -/
def maximalHexRun (s : List Char) (a len : Nat) : Bool :=
  hexRun s a len && (decide (a = 0) || !hexAt s (a - 1)) && !hexAt s (a + len)

/-! ### Concrete inputs used by witnesses and counterexamples -/

/-- Sixteen distinct hex characters. -/
def hex16 : String := "0123456789abcdef"

/-- A 64-character hex key with 16 distinct characters. -/
def hex64 : List Char := (hex16 ++ hex16 ++ hex16 ++ hex16).toList

/-- A region text with two db_storage markers whose windows both contain the
same 64-character hex run (the Z separates the marker from the run so the
run is maximal). -/
def c1text : List Char :=
  ("db_storagedb_storageZ" ++ String.mk hex64 ++ "zzzzzzzzzzzzzzzzzzzz").toList

/-- A readable and writable 105-byte region holding `c1text`. -/
def c1region : Region := ⟨105, true, true, true, c1text⟩

/-- A state where pgrep finds a pid and the scan reaches the fallback pass
over `c1region`. -/
def c1state : SysState := ⟨0, "123", true, false, [c1region]⟩

/-- A 65-character maximal hex run. -/
def hex65 : List Char := hex64 ++ ['0']

/-- A region text with one db_storage marker followed by a maximal hex run
of length 65. -/
def c3text : List Char :=
  ("db_storageZ" ++ String.mk hex65 ++ "zzzzzzzzzzzzzzzzzzzzzzzz").toList

/-- A readable and writable 100-byte region holding `c3text`. -/
def c3region : Region := ⟨100, true, true, true, c3text⟩

/-- A state where pgrep finds a pid and the scan reaches the fallback pass
over `c3region`. -/
def c3state : SysState := ⟨0, "123", true, false, [c3region]⟩

/-- Sixty-four repeated a characters. -/
def aKey : List Char := List.replicate 64 'a'

/-- Sixty-four repeated b characters. -/
def bKey : List Char := List.replicate 64 'b'

/-- A region text holding two distinct primary-pattern key literals. -/
def c4text : List Char :=
  ("x" ++ quoteStr ++ String.mk aKey ++ quoteStr
    ++ "x" ++ quoteStr ++ String.mk bKey ++ quoteStr).toList

/-- A readable (not writable) 134-byte region holding `c4text`. -/
def c4region : Region := ⟨134, true, false, true, c4text⟩

/-- A state where pgrep finds a pid and the primary pass finds two keys. -/
def c4state : SysState := ⟨0, "123", true, false, [c4region]⟩

/-- A state where pgrep finds a pid and the debugger subprocess hits the
120-second timeout. -/
def c8state : SysState := ⟨0, "123", true, true, []⟩

/-- A state where pgrep exits non-zero. -/
def c6state : SysState := ⟨1, "", true, false, []⟩

/-- A state where pgrep exits 0 with empty stdout. -/
def c10state : SysState := ⟨0, "", true, false, []⟩

/-! ### Scanner lemmas -/

/-- A list element at a defined index is a member. -/
theorem mem_of_index {α : Type} {l : List α} {i : Nat} {a : α} (h : l[i]? = some a) :
    a ∈ l := by
  rw [List.getElem?_eq_some] at h
  obtain ⟨hi, rfl⟩ := h
  exact List.getElem_mem hi

/-- Two primary-pattern matches cannot overlap: the first character of a
match is x, while every character strictly inside a match is a quote or a
hex character. -/
theorem primaryMatch_no_overlap {s : List Char} {i : Nat}
    (h0 : isPrimaryMatch s = true) (hi : isPrimaryMatch (s.drop i) = true) :
    i = 0 ∨ 67 ≤ i := by
  by_contra hcon
  push_neg at hcon
  obtain ⟨hne, hlt⟩ := hcon
  simp only [isPrimaryMatch, Bool.and_eq_true, decide_eq_true_eq, List.all_eq_true] at h0 hi
  obtain ⟨⟨⟨⟨h0x, h0q1⟩, h0hex⟩, h0q2⟩, h0len⟩ := h0
  obtain ⟨⟨⟨⟨hix, _⟩, _⟩, _⟩, _⟩ := hi
  rw [List.getElem?_drop, Nat.add_zero] at hix
  rcases Nat.lt_or_ge i 2 with h2 | h2
  · have hi1 : i = 1 := by omega
    subst hi1
    rw [h0q1] at hix
    exact absurd hix (by decide)
  · rcases Nat.lt_or_ge i 66 with h66 | h66
    · have hmem : 'x' ∈ (s.drop 2).take 64 := by
        apply mem_of_index (i := i - 2)
        rw [List.getElem?_take, if_pos (by omega : i - 2 < 64), List.getElem?_drop]
        rw [show 2 + (i - 2) = i from by omega]
        exact hix
      have := h0hex _ hmem
      exact absurd this (by decide)
    · have hi66 : i = 66 := by omega
      subst hi66
      rw [h0q2] at hix
      exact absurd hix (by decide)

/-- Soundness of the fuelled primary scan: every emitted capture comes from
a position where the primary pattern matches. -/
theorem primaryScanF_sound :
    ∀ (fuel : Nat) (s : List Char), s.length ≤ fuel → ∀ k, k ∈ primaryScanF fuel s →
      ∃ i, primaryMatchHead (s.drop i) = some k := by
  intro fuel
  induction fuel with
  | zero =>
    intro s hs k hk
    simp [primaryScanF] at hk
  | succ n ih =>
    intro s hs k hk
    match s with
    | [] => simp [primaryScanF] at hk
    | c :: rest =>
      by_cases hm : isPrimaryMatch (c :: rest) = true
      · rw [primaryScanF, if_pos hm] at hk
        rcases List.mem_cons.mp hk with rfl | hk2
        · exact ⟨0, by rw [List.drop_zero, primaryMatchHead, if_pos hm]⟩
        · have hlen : (rest.drop 66).length ≤ n := by
            simp only [List.length_drop]
            simp only [List.length_cons] at hs
            omega
          obtain ⟨i, hi⟩ := ih (rest.drop 66) hlen k hk2
          refine ⟨i + 67, ?_⟩
          have heq : (c :: rest).drop (i + 67) = (rest.drop 66).drop i := by
            rw [show i + 67 = (i + 66) + 1 from by omega, List.drop_succ_cons, List.drop_drop]
            rw [Nat.add_comm 66 i]
          rw [heq]
          exact hi
      · rw [primaryScanF, if_neg hm] at hk
        have hlen : rest.length ≤ n := by
          simp only [List.length_cons] at hs
          omega
        obtain ⟨i, hi⟩ := ih rest hlen k hk
        exact ⟨i + 1, by rw [List.drop_succ_cons]; exact hi⟩

/-- Completeness of the fuelled primary scan: every position where the
primary pattern matches has its capture emitted. -/
theorem primaryScanF_complete :
    ∀ (fuel : Nat) (s : List Char), s.length ≤ fuel → ∀ (i : Nat) (k : List Char),
      primaryMatchHead (s.drop i) = some k → k ∈ primaryScanF fuel s := by
  intro fuel
  induction fuel with
  | zero =>
    intro s hs i k hk
    have hnil : s = [] := List.length_eq_zero.mp (Nat.le_zero.mp hs)
    subst hnil
    rw [List.drop_nil] at hk
    rw [show primaryMatchHead ([] : List Char) = none from rfl] at hk
    exact Option.noConfusion hk
  | succ n ih =>
    intro s hs i k hk
    match s with
    | [] =>
      rw [List.drop_nil] at hk
      rw [show primaryMatchHead ([] : List Char) = none from rfl] at hk
      exact Option.noConfusion hk
    | c :: rest =>
      have hmi : isPrimaryMatch ((c :: rest).drop i) = true := by
        by_contra hno
        rw [primaryMatchHead, if_neg hno] at hk
        exact Option.noConfusion hk
      have hkeq : k = (((c :: rest).drop i).drop 2).take 64 := by
        rw [primaryMatchHead, if_pos hmi] at hk
        exact (Option.some.inj hk).symm
      have hrest : rest.length ≤ n := by
        simp only [List.length_cons] at hs
        omega
      by_cases hm : isPrimaryMatch (c :: rest) = true
      · rcases primaryMatch_no_overlap hm hmi with rfl | h67
        · rw [primaryScanF, if_pos hm]
          rw [List.drop_zero] at hkeq
          subst hkeq
          exact List.mem_cons_self _ _
        · obtain ⟨j, rfl⟩ : ∃ j, i = j + 67 := ⟨i - 67, by omega⟩
          have heq : (c :: rest).drop (j + 67) = (rest.drop 66).drop j := by
            rw [show j + 67 = (j + 66) + 1 from by omega, List.drop_succ_cons, List.drop_drop]
            rw [Nat.add_comm 66 j]
          rw [heq] at hk
          have hlen : (rest.drop 66).length ≤ n := by
            simp only [List.length_drop]
            omega
          have hmem := ih (rest.drop 66) hlen j k hk
          rw [primaryScanF, if_pos hm]
          exact List.mem_cons_of_mem _ hmem
      · have hi0 : i ≠ 0 := by
          rintro rfl
          rw [List.drop_zero] at hmi
          exact hm hmi
        obtain ⟨j, rfl⟩ : ∃ j, i = j + 1 := ⟨i - 1, by omega⟩
        rw [List.drop_succ_cons] at hk
        have hmem := ih rest hrest j k hk
        rw [primaryScanF, if_neg hm]
        exact hmem

/-- Soundness of the fuelled fallback scan: every emitted candidate is a run
of 64 hex characters read off some position of the text. -/
theorem hexScanF_sound :
    ∀ (fuel : Nat) (s : List Char), s.length ≤ fuel → ∀ k, k ∈ hexScanF fuel s →
      ∃ j, isHex64 (s.drop j) = true ∧ k = (s.drop j).take 64 := by
  intro fuel
  induction fuel with
  | zero =>
    intro s hs k hk
    simp [hexScanF] at hk
  | succ n ih =>
    intro s hs k hk
    match s with
    | [] => simp [hexScanF] at hk
    | c :: rest =>
      by_cases hm : isHex64 (c :: rest) = true
      · rw [hexScanF, if_pos hm] at hk
        rcases List.mem_cons.mp hk with rfl | hk2
        · exact ⟨0, by rw [List.drop_zero]; exact ⟨hm, rfl⟩⟩
        · have hlen : (rest.drop 63).length ≤ n := by
            simp only [List.length_drop]
            simp only [List.length_cons] at hs
            omega
          obtain ⟨j, hj1, hj2⟩ := ih (rest.drop 63) hlen k hk2
          refine ⟨j + 64, ?_⟩
          have heq : (c :: rest).drop (j + 64) = (rest.drop 63).drop j := by
            rw [show j + 64 = (j + 63) + 1 from by omega, List.drop_succ_cons, List.drop_drop]
            rw [Nat.add_comm 63 j]
          rw [heq]
          exact ⟨hj1, hj2⟩
      · rw [hexScanF, if_neg hm] at hk
        have hlen : rest.length ≤ n := by
          simp only [List.length_cons] at hs
          omega
        obtain ⟨j, hj1, hj2⟩ := ih rest hlen k hk
        exact ⟨j + 1, by rw [List.drop_succ_cons]; exact ⟨hj1, hj2⟩⟩

/-- A primary-pattern match at position i makes positions i+2 .. i+65 a
maximal hex run of length exactly 64: it is bounded by the quote delimiters
on both sides, and a quote is not a hex character. -/
theorem primaryMatch_maximalRun {s : List Char} {i : Nat}
    (h : isPrimaryMatch (s.drop i) = true) : maximalHexRun s (i + 2) 64 = true := by
  simp only [isPrimaryMatch, Bool.and_eq_true, decide_eq_true_eq, List.all_eq_true] at h
  obtain ⟨⟨⟨⟨hx, hq1⟩, hhex⟩, hq2⟩, hlen⟩ := h
  rw [List.getElem?_drop] at hq1 hq2
  rw [List.length_drop] at hlen
  rw [maximalHexRun, Bool.and_eq_true, Bool.and_eq_true]
  refine ⟨⟨?_, ?_⟩, ?_⟩
  · rw [hexRun, Bool.and_eq_true]
    constructor
    · exact decide_eq_true (by omega)
    · rw [List.all_eq_true]
      intro j hj
      rw [List.mem_range] at hj
      have hlt : i + 2 + j < s.length := by omega
      have hsome : s[i + 2 + j]? = some (s[i + 2 + j]) := List.getElem?_eq_getElem hlt
      rw [hexAt, hsome, Option.any_some]
      apply hhex
      rw [List.drop_drop]
      apply mem_of_index (i := j)
      rw [List.getElem?_take, if_pos hj, List.getElem?_drop]
      exact hsome
  · rw [Bool.or_eq_true]
    right
    rw [Bool.not_eq_true']
    rw [show i + 2 - 1 = i + 1 from by omega]
    rw [hexAt, hq1]
    decide
  · rw [Bool.not_eq_true']
    rw [show i + 2 + 64 = i + 66 from by omega]
    rw [hexAt, hq2]
    decide

/-! ### Claim theorems -/

/-- C2: for every decoded text buffer, the primary pass yields exactly the
deduplicated set of 64-character captures of the pattern x-quote-64-hex-quote:
a key is in the deduplicated scan result iff the pattern matches at some
position of the buffer with that capture. -/
theorem C2_primary_extraction (s k : List Char) :
    k ∈ (primaryScan s).dedup ↔ ∃ i, primaryMatchHead (s.drop i) = some k := by
  rw [List.mem_dedup]
  constructor
  · exact primaryScanF_sound s.length s le_rfl k
  · rintro ⟨i, hi⟩
    exact primaryScanF_complete s.length s le_rfl i k hi

/-- Concrete instance of C2: the capture of the first primary match of
`c4text` is in the deduplicated result set. -/
theorem C2_witness : aKey ∈ (primaryScan c4text).dedup :=
  (C2_primary_extraction c4text aKey).mpr ⟨0, by decide⟩

/-- C1 as stated is false: near two overlapping marker windows the fallback
pass reports the same candidate twice, and extract_key_via_lldb returns a
list with a duplicate 64-hex string. -/
theorem C1_counterexample :
    extract_key_via_lldb idOrder c1state = Except.ok [hex64, hex64]
      ∧ ¬ ([hex64, hex64] : List (List Char)).Nodup :=
  ⟨rfl, by decide⟩

/-- C1 (amended): when the primary pass finds at least one key, the
reported list is duplicate-free (it enumerates the found_keys set once);
only the fallback pass can report duplicates, because it prints a passing
candidate at every discovery. -/
theorem C1_primary_branch_nodup (order : List (List Char) → List (List Char))
    (hv : validOrder order) (attachOk : Bool) (regions : List Region)
    (hprim : primaryFound regions ≠ []) :
    (scanPrintedKeys order attachOk regions).Nodup := by
  unfold scanPrintedKeys
  by_cases ha : attachOk = true
  · rw [if_pos ha, if_neg hprim]
    exact (hv (primaryFound regions)).symm.nodup (List.nodup_dedup _)
  · rw [if_neg ha]
    exact List.nodup_nil

/-- Concrete instance of the amended C1: with two keys found by the primary
pass the reported list has no duplicates. -/
theorem C1_witness : (scanPrintedKeys idOrder true [c4region]).Nodup :=
  C1_primary_branch_nodup idOrder (fun l => List.Perm.refl l) true [c4region] (by decide)

/-- C3 as stated is false for the fallback pass: `c3text` carries a maximal
hex run of length 65, and the scan reports a candidate, namely the first 64
characters of that run. -/
theorem C3_counterexample :
    maximalHexRun c3text 11 65 = true
      ∧ extract_key_via_lldb idOrder c3state = Except.ok [hex64]
      ∧ hex64 = (c3text.drop 11).take 64 :=
  ⟨by decide, rfl, by decide⟩

/-- C3 (amended): the primary pattern accepts only runs of exactly 64 hex
characters — every primary capture occupies a maximal hex run of exactly 64
characters, so maximal runs of length 63 or 65 contribute no primary
candidate.  The fallback regex has no boundary anchors: every fallback
candidate is just 64 consecutive hex characters read off a marker window,
so runs shorter than 64 contribute nothing, but a maximal 65-character run
contributes its first 64 characters (see the counterexample). -/
theorem C3_hexrun_boundaries (s t : List Char) (i : Nat) (k k2 : List Char) :
    (primaryMatchHead (s.drop i) = some k → maximalHexRun s (i + 2) 64 = true)
    ∧ (k2 ∈ fallbackScanText t →
        ∃ pos j, isHex64 ((windowAt t pos).drop j) = true
          ∧ k2 = ((windowAt t pos).drop j).take 64) := by
  constructor
  · intro h
    have hm : isPrimaryMatch (s.drop i) = true := by
      by_contra hno
      rw [primaryMatchHead, if_neg hno] at h
      exact Option.noConfusion h
    exact primaryMatch_maximalRun hm
  · intro h
    rw [fallbackScanText, List.mem_flatMap] at h
    obtain ⟨pos, hpos, hmem⟩ := h
    obtain ⟨j, hj1, hj2⟩ :=
      hexScanF_sound (windowAt t pos).length (windowAt t pos) le_rfl k2 (List.mem_filter.mp hmem).1
    exact ⟨pos, j, hj1, hj2⟩

/-- Concrete instance of the amended C3: the first primary capture of
`c4text` is a maximal run of exactly 64, and the fallback candidate of
`c3text` is 64 consecutive hex characters of a window. -/
theorem C3_witness :
    maximalHexRun c4text 2 64 = true
      ∧ ∃ pos j, isHex64 ((windowAt c3text pos).drop j) = true
          ∧ hex64 = ((windowAt c3text pos).drop j).take 64 :=
  ⟨(C3_hexrun_boundaries c4text c3text 0 aKey hex64).1 (by decide),
   (C3_hexrun_boundaries c4text c3text 0 aKey hex64).2 (by decide)⟩

/-- C4 as stated is false: two runs over the same memory state that differ
only in the (unspecified, per-process randomized) iteration order of the
Python set print the keys in different line orders, so the output file is
not byte-identical. -/
theorem C4_counterexample : mainRun idOrder c4state ≠ mainRun revOrder c4state := by
  decide

/-- C4 (amended): two runs on an identical memory state always extract the
same set of keys, whatever the set iteration orders of the two runs were;
only the line order of the output file can differ. -/
theorem C4_keyset_deterministic (o1 o2 : List (List Char) → List (List Char))
    (h1 : validOrder o1) (h2 : validOrder o2) (st : SysState)
    (k1 k2 : List (List Char))
    (e1 : extract_key_via_lldb o1 st = Except.ok k1)
    (e2 : extract_key_via_lldb o2 st = Except.ok k2) :
    k1.toFinset = k2.toFinset := by
  unfold extract_key_via_lldb at e1 e2
  by_cases ht : st.lldbTimeout = true
  · rw [if_pos ht] at e1
    exact absurd e1 (by simp)
  · rw [if_neg ht] at e1 e2
    obtain rfl : scanPrintedKeys o1 st.attachOk st.regions = k1 := Except.ok.inj e1
    obtain rfl : scanPrintedKeys o2 st.attachOk st.regions = k2 := Except.ok.inj e2
    unfold scanPrintedKeys
    by_cases ha : st.attachOk = true
    · rw [if_pos ha, if_pos ha]
      by_cases hp : primaryFound st.regions = []
      · rw [if_pos hp, if_pos hp]
      · rw [if_neg hp, if_neg hp]
        ext a
        simp only [List.mem_toFinset]
        rw [(h1 (primaryFound st.regions)).mem_iff, (h2 (primaryFound st.regions)).mem_iff]
    · rw [if_neg ha, if_neg ha]

/-- Concrete instance of the amended C4: the identity and reversed set
orders give lists with the same key set. -/
theorem C4_witness :
    ([aKey, bKey] : List (List Char)).toFinset
      = ([bKey, aKey] : List (List Char)).toFinset :=
  C4_keyset_deterministic idOrder revOrder (fun l => List.Perm.refl l)
    (fun l => List.reverse_perm l) c4state [aKey, bKey] [bKey, aKey] rfl rfl

/-- C5: the fallback noise filter discards the all-zero candidate, discards
every candidate with at most 4 distinct characters, and retains every
candidate with at least 5 distinct characters. -/
theorem C5_noise_filter (c : List Char) :
    noiseFilter zeros64 = false
      ∧ (c.dedup.length ≤ 4 → noiseFilter c = false)
      ∧ (5 ≤ c.dedup.length → noiseFilter c = true) := by
  refine ⟨by decide, ?_, ?_⟩
  · intro h
    rw [noiseFilter]
    have hd : decide (4 < c.dedup.length) = false := by
      simp only [decide_eq_false_iff_not]
      omega
    rw [hd, Bool.and_false]
  · intro h
    rw [noiseFilter]
    have h1 : decide (4 < c.dedup.length) = true := decide_eq_true (by omega)
    have h2 : decide (c ≠ zeros64) = true := by
      apply decide_eq_true
      intro hc
      subst hc
      rw [show zeros64.dedup = ['0'] from by decide] at h
      simp at h
    rw [h1, h2]
    rfl

/-- Concrete instances of C5: a one-character candidate is discarded, a
sixteen-character candidate is retained. -/
theorem C5_witness : noiseFilter aKey = false ∧ noiseFilter hex64 = true :=
  ⟨(C5_noise_filter aKey).2.1 (by decide), (C5_noise_filter hex64).2.2 (by decide)⟩

/-- C6: when the process locator reports absence, main exits with status 1
and writes no output file. -/
theorem C6_absent_process (order : List (List Char) → List (List Char)) (st : SysState)
    (h : get_wechat_pid st.pgrepRc st.pgrepStdout = none) :
    mainRun order st = MainOutcome.exited 1 none := by
  unfold mainRun
  rw [h]
  rfl

/-- Concrete instance of C6: pgrep exiting non-zero makes the tool exit 1
with no file. -/
theorem C6_witness : mainRun idOrder c6state = MainOutcome.exited 1 none :=
  C6_absent_process idOrder c6state rfl

/-- C7 as stated is false at the boundary: a run of the tool that exits 0
and prints a single space produces non-empty standard output, yet the
validator returns false because the code tests the stripped output. -/
theorem C7_counterexample :
    try_decrypt_with_key (fun _ _ => SubprocOutcome.completed 0 " ") "db" "k" = false
      ∧ (0 : Int) = 0 ∧ (" " : String) ≠ "" :=
  ⟨rfl, rfl, by decide⟩

/-- C7 (amended): the validator returns true iff the tool completed with
exit code 0 and a stdout that is non-empty after stripping whitespace; on a
timeout or a missing executable it returns false (the exception is caught
locally). -/
theorem C7_validator_boolean (env : String → String → SubprocOutcome)
    (dbPath key : String) (rc : Int) (out : String) :
    (env dbPath key = SubprocOutcome.completed rc out →
      (try_decrypt_with_key env dbPath key = true ↔ rc = 0 ∧ stripChars out.toList ≠ []))
    ∧ (env dbPath key = SubprocOutcome.timedOut → try_decrypt_with_key env dbPath key = false)
    ∧ (env dbPath key = SubprocOutcome.toolMissing → try_decrypt_with_key env dbPath key = false) := by
  refine ⟨?_, ?_, ?_⟩
  · intro h
    unfold try_decrypt_with_key
    rw [h]
    simp [List.isEmpty_iff]
  · intro h
    unfold try_decrypt_with_key
    rw [h]
  · intro h
    unfold try_decrypt_with_key
    rw [h]

/-- Concrete instances of the amended C7. -/
theorem C7_witness :
    (try_decrypt_with_key (fun _ _ => SubprocOutcome.completed 0 "ok") "db" "k" = true ↔
      (0 : Int) = 0 ∧ stripChars ("ok".toList) ≠ [])
      ∧ try_decrypt_with_key (fun _ _ => SubprocOutcome.timedOut) "db" "k" = false :=
  ⟨(C7_validator_boolean (fun _ _ => SubprocOutcome.completed 0 "ok") "db" "k" 0 "ok").1 rfl,
   (C7_validator_boolean (fun _ _ => SubprocOutcome.timedOut) "db" "k" 0 "ok").2.1 rfl⟩

/-- C8 as stated is false: when the debugger subprocess times out, the
uncaught TimeoutExpired aborts the run instead of degrading to a
zero-status no-keys exit. -/
theorem C8_counterexample :
    mainRun idOrder c8state = MainOutcome.crashed
      ∧ mainRun idOrder c8state ≠ MainOutcome.exited 0 none :=
  ⟨rfl, by decide⟩

/-- C8 (amended): subprocess.run kills the debugger child on the
120-second timeout and raises TimeoutExpired; neither extract_key_via_lldb
nor main catches it, so whenever the pid was found and the timeout fires,
the run terminates abnormally (no zero exit, no output file). -/
theorem C8_timeout_crashes (order : List (List Char) → List (List Char)) (st : SysState)
    (hpid : pidTruthy (get_wechat_pid st.pgrepRc st.pgrepStdout) = true)
    (ht : st.lldbTimeout = true) :
    mainRun order st = MainOutcome.crashed := by
  unfold mainRun
  rw [if_pos hpid]
  unfold extract_key_via_lldb
  rw [if_pos ht]

/-- Concrete instance of the amended C8. -/
theorem C8_witness : mainRun idOrder c8state = MainOutcome.crashed :=
  C8_timeout_crashes idOrder c8state (by decide) rfl

/-- C9: the fallback marker-proximity pass decides the result exactly when
the primary pass found nothing across all regions: if every region
contributes no primary capture the reported keys are the fallback keys
(so the fallback is attempted before concluding that no keys were found),
if some region contributes a primary capture the reported key set is
exactly the set of primary captures (the fallback contributes nothing),
and a region that is not both readable and writable with size in
[100, 50 MiB] and a successful non-empty read contributes nothing to the
fallback pass. -/
theorem C9_fallback_iff (order : List (List Char) → List (List Char))
    (hv : validOrder order) (regions : List Region) (r : Region)
    (hr : (r.readable && r.writable && decide (100 ≤ r.size)
        && decide (r.size ≤ 50 * 1024 * 1024) && r.readOk) = false) :
    ((regions.all fun r2 => primaryRegionKeys r2 == []) = true →
        scanPrintedKeys order true regions = regions.flatMap fallbackRegionKeys)
    ∧ ((regions.all fun r2 => primaryRegionKeys r2 == []) = false →
        (scanPrintedKeys order true regions).toFinset
          = (regions.flatMap primaryRegionKeys).toFinset)
    ∧ fallbackRegionKeys r = [] := by
  refine ⟨?_, ?_, ?_⟩
  · intro hall
    have hnil : regions.flatMap primaryRegionKeys = [] := by
      apply List.flatMap_eq_nil_iff.mpr
      intro x hx
      rw [List.all_eq_true] at hall
      exact eq_of_beq (hall x hx)
    have hprim : primaryFound regions = [] := by
      rw [primaryFound, hnil]
      rfl
    unfold scanPrintedKeys
    rw [if_pos rfl, if_pos hprim]
  · intro hall
    have hex : regions.flatMap primaryRegionKeys ≠ [] := by
      intro hnil
      have hall2 : (regions.all fun r2 => primaryRegionKeys r2 == []) = true := by
        rw [List.all_eq_true]
        intro x hx
        have hx2 : primaryRegionKeys x = [] := List.flatMap_eq_nil_iff.mp hnil x hx
        rw [hx2]
        rfl
      rw [hall2] at hall
      exact Bool.noConfusion hall
    have hprim : primaryFound regions ≠ [] := by
      rw [primaryFound]
      intro hd
      exact hex ((List.dedup_eq_nil _).mp hd)
    unfold scanPrintedKeys
    rw [if_pos rfl, if_neg hprim]
    ext a
    simp only [List.mem_toFinset]
    rw [(hv (primaryFound regions)).mem_iff, primaryFound, List.mem_dedup]
  · unfold fallbackRegionKeys
    rw [hr]
    simp

/-- Concrete instance of C9 at a one-region state whose region yields
primary captures and is excluded from the fallback pass. -/
theorem C9_witness :
    (([c4region].all fun r2 => primaryRegionKeys r2 == []) = true →
        scanPrintedKeys idOrder true [c4region] = [c4region].flatMap fallbackRegionKeys)
    ∧ (([c4region].all fun r2 => primaryRegionKeys r2 == []) = false →
        (scanPrintedKeys idOrder true [c4region]).toFinset
          = ([c4region].flatMap primaryRegionKeys).toFinset)
    ∧ fallbackRegionKeys c4region = [] :=
  C9_fallback_iff idOrder (fun l => List.Perm.refl l) [c4region] c4region (by decide)

/-- C10: when pgrep exits 0 with empty stdout, get_wechat_pid returns the
empty string (not None), main treats it like process-not-found and exits 1
without writing a file; when pgrep prints one or more lines, exactly the
first line is returned. -/
theorem C10_empty_pid_edge (order : List (List Char) → List (List Char)) (st : SysState) :
    get_wechat_pid 0 "" = some ""
      ∧ (st.pgrepRc = 0 → st.pgrepStdout = "" → mainRun order st = MainOutcome.exited 1 none)
      ∧ get_wechat_pid 0 "735\n812\n" = some "735" := by
  refine ⟨rfl, ?_, rfl⟩
  intro h1 h2
  unfold mainRun
  rw [h1, h2]
  rfl

/-- Concrete instance of C10: empty pgrep output makes the tool exit 1. -/
theorem C10_witness : mainRun idOrder c10state = MainOutcome.exited 1 none :=
  (C10_empty_pid_edge idOrder c10state).2.1 rfl rfl
